import Mathlib

/-!
Verification of the change-generation and application pipeline of the
llm-pr-assistant extension (src/extension.ts), shallowly embedded: strings
are lists of characters, the filesystem is an association list from paths
to file bodies, and the external collaborators (model, git) are an
environment of response values and result functions.
-/

set_option maxHeartbeats 1000000
set_option maxRecDepth 4000

namespace LlmPrAssistant

abbrev Str := List Char

/-! ## Basic string helpers (JS string semantics on lists of characters) -/

/-- JS whitespace characters relevant to `\s`, `trim`, and `split(/\s+/)`
(ASCII subset). -/
def isWsChar (c : Char) : Bool :=
  c == ' ' || c == '\t' || c == '\n' || c == '\r' || c == '\x0b' || c == '\x0c'

/-- Drop trailing whitespace. -/
def dropTrailingWs (l : Str) : Str := (l.reverse.dropWhile isWsChar).reverse

/-- JS `String.prototype.trim`. -/
def trimStr (l : Str) : Str := dropTrailingWs (l.dropWhile isWsChar)

/-- `hasPrefixB pre l` is true when `pre` is a prefix of `l`
(JS `startsWith`). -/
def hasPrefixB : Str → Str → Bool
  | [], _ => true
  | _ :: _, [] => false
  | a :: pre, b :: l => a == b && hasPrefixB pre l

/-- `containsSub needle hay` is true when `needle` occurs as a contiguous
substring of `hay` (JS `includes`). -/
def containsSub (needle : Str) : Str → Bool
  | [] => needle.isEmpty
  | c :: rest => hasPrefixB needle (c :: rest) || containsSub needle rest

/-- Split on `/\r?\n/`: pieces separated by `\n`, each non-final piece with
one trailing `\r` removed (the accumulator holds the current piece
reversed). -/
def stripRevCR (acc : Str) : Str :=
  match acc with
  | c :: tl => if c = '\r' then tl.reverse else (c :: tl).reverse
  | [] => []

/-- Remove one trailing carriage return. -/
def stripEndCR (x : Str) : Str :=
  match x.getLast? with
  | some c => if c = '\r' then x.dropLast else x
  | none => x

def splitLinesCRLFGo (acc : Str) : Str → List Str
  | [] => [acc.reverse]
  | c :: rest =>
    if c = '\n' then stripRevCR acc :: splitLinesCRLFGo [] rest
    else splitLinesCRLFGo (c :: acc) rest

/-- JS `patch.split(/\r?\n/)`. -/
def splitLinesCRLF (l : Str) : List Str := splitLinesCRLFGo [] l

def splitWsGo (acc : Str) : Str → List Str
  | [] => [acc.reverse]
  | c :: rest =>
    if isWsChar c then acc.reverse :: splitWsGo [] rest
    else splitWsGo (c :: acc) rest

/-- JS `split(/\s+/)` followed by `.filter(Boolean)`. -/
def wordsOf (l : Str) : List Str := (splitWsGo [] l).filter (fun w => !w.isEmpty)

def splitOnCharGo (sep : Char) (acc : Str) : Str → List Str
  | [] => [acc.reverse]
  | c :: rest =>
    if c == sep then acc.reverse :: splitOnCharGo sep [] rest
    else splitOnCharGo sep (c :: acc) rest

/-- JS `split("-")` and friends. -/
def splitOnChar (sep : Char) (l : Str) : List Str := splitOnCharGo sep [] l

def toLowerStr (l : Str) : Str := l.map Char.toLower

def natToStr (n : Nat) : Str := (Nat.repr n).data

/-! ## levenshteinDistance (src/extension.ts:703) -/

/-- One inner-loop pass of the two-row DP: given the character `c = a[i]`,
the remaining `b` suffix, the previous row suffix and `next[j]`, produce
`next[j+1..]`. -/
def levStep (c : Char) : Str → List Nat → Nat → List Nat
  | bj :: bs, pj :: pj1 :: ps, nj =>
    let cost := if c = bj then 0 else 1
    let nj1 := min (pj1 + 1) (min (nj + 1) (pj + cost))
    nj1 :: levStep c bs (pj1 :: ps) nj1
  | _, _, _ => []

def levenshteinDistance (a b : Str) : Nat :=
  if a = b then 0
  else if a.isEmpty then b.length
  else if b.isEmpty then a.length
  else
    let init := List.range (b.length + 1)
    let final := (a.foldl (fun (st : List Nat × Nat) c =>
      let n0 := st.2 + 1
      (n0 :: levStep c b st.1 n0, n0)) (init, 0)).1
    final.getD b.length 0

/-! ## extractRequestedCount (src/extension.ts:622) -/

/-- The closed cardinal-word map, in source insertion order. -/
def numberWordMap : List (Str × Nat) :=
  [("one".data, 1), ("two".data, 2), ("three".data, 3), ("four".data, 4),
   ("five".data, 5), ("six".data, 6), ("seven".data, 7), ("eight".data, 8),
   ("nine".data, 9), ("ten".data, 10), ("eleven".data, 11),
   ("twelve".data, 12), ("thirteen".data, 13), ("fourteen".data, 14),
   ("fifteen".data, 15), ("sixteen".data, 16), ("seventeen".data, 17),
   ("eighteen".data, 18), ("nineteen".data, 19), ("twenty".data, 20),
   ("thirty".data, 30), ("forty".data, 40), ("fifty".data, 50)]

def lookupWord (w : Str) : Option Nat :=
  (numberWordMap.find? (fun p => p.1 == w)).map (fun p => p.2)

/-- findClosestNumberWord (src/extension.ts:686): first key (in insertion
order) at strictly smallest edit distance; empty string when none is
within `maxDistance`. -/
def findClosestNumberWord (token : Str) (maxDistance : Nat) : Str :=
  let r := numberWordMap.foldl
    (fun (st : Str × Nat) p =>
      let d := levenshteinDistance token p.1
      if d < st.2 then (p.1, d) else st)
    ([], maxDistance + 1)
  if r.2 ≤ maxDistance then r.1 else []

/-- JS `\w` (word character) for `\b` boundaries. -/
def isWordChar (c : Char) : Bool := c.isAlpha || c.isDigit || c == '_'

def natOfDigits (l : Str) : Nat := l.foldl (fun a c => a * 10 + (c.toNat - 48)) 0

/-- Scanner for `/\b\d{1,3}\b/g`, taking the maximum matched value: a
maximal digit run matches when it has length 1..3 and its neighbours
(when present) are non-word characters. `okStart` records whether the
character before the current position allows a `\b` before a digit;
`runOpt` is the digit run currently being collected, reversed. -/
def digitScanGo (okStart : Bool) (runOpt : Option Str) : Str → Nat
  | [] =>
    match runOpt with
    | some r => if r.length ≤ 3 then natOfDigits r.reverse else 0
    | none => 0
  | c :: rest =>
    match runOpt with
    | some r =>
      if c.isDigit then digitScanGo okStart (some (c :: r)) rest
      else
        let v := if decide (r.length ≤ 3) && !(isWordChar c)
          then natOfDigits r.reverse else 0
        max v (digitScanGo (!(isWordChar c)) none rest)
    | none =>
      if c.isDigit && okStart then digitScanGo okStart (some [c]) rest
      else digitScanGo (!(isWordChar c)) none rest

/-- Maximum over all matches of `text.match(/\b\d{1,3}\b/g)`. -/
def digitRunsMax (text : Str) : Nat := digitScanGo true none text

/-- The word-scanning loop of extractRequestedCount: hyphenated compounds,
map lookups with fuzzy fallback, and tens-word + units-word adjacency;
returns the maximum value seen. -/
def extractWordsMax : List Str → Nat
  | [] => 0
  | w :: rest =>
    let hyphenVal : Option Nat :=
      if w.contains '-' then
        let parts := splitOnChar '-' w
        match lookupWord (parts.getD 0 []), lookupWord (parts.getD 1 []) with
        | some b, some n => if 0 < b ∧ 0 < n ∧ n < 10 then some (b + n) else none
        | _, _ => none
      else none
    match hyphenVal with
    | some v => max v (extractWordsMax rest)
    | none =>
      match (lookupWord w).orElse (fun _ => lookupWord (findClosestNumberWord w 2)) with
      | some value =>
        if 0 < value then
          let total :=
            if 20 ≤ value ∧ value % 10 = 0 then
              match rest with
              | nxt :: _ =>
                match lookupWord nxt with
                | some n => if 0 < n ∧ n < 10 then value + n else value
                | none => value
              | [] => value
            else value
          max total (extractWordsMax rest)
        else extractWordsMax rest
      | none => extractWordsMax rest

/-- extractRequestedCount (src/extension.ts:622): maximum of the literal
digit scan and the word scan over the text with non-`[a-z\s-]` characters
replaced by spaces. -/
def extractRequestedCount (text : Str) : Nat :=
  max (digitRunsMax text)
    (extractWordsMax (wordsOf
      (text.map (fun c => if c.isLower || isWsChar c || c == '-' then c else ' '))))

/-! ## classifyTaskSizing (src/extension.ts:591) -/

inductive TaskExecutionTier
  | tier1
  | tier2
  | tier3
deriving DecidableEq, Repr

/-- The broad-scope keyword alternation, in regex order. -/
def scopeKeywords : List Str :=
  ["all".data, "every".data, "each".data, "across".data, "compare".data,
   "generate".data, "create".data, "add".data, "migrate".data,
   "refactor".data, "update".data, "implement".data, "replace".data]

def classifyTaskSizing (prompt contextText : Str) : TaskExecutionTier :=
  let lower := toLowerStr prompt
  let count := extractRequestedCount lower
  let promptLength := prompt.length
  let contextSize := contextText.length
  let hasScopeSignals := scopeKeywords.any (fun k => containsSub k lower)
  let score :=
    (if promptLength > 600 then 2 else if promptLength > 300 then 1 else 0)
    + (if contextSize > 200000 then 2 else if contextSize > 100000 then 1 else 0)
    + (if count ≥ 20 then 3 else if count ≥ 8 then 2 else if count ≥ 4 then 2 else 0)
    + (if hasScopeSignals then 1 else 0)
  if score ≥ 5 then .tier3 else if score ≥ 3 then .tier2 else .tier1

/-! ## Spec-side restatement of the §4.2 scoring table (for claim C3) -/

def c3PromptLengthScore (prompt : Str) : Nat :=
  if prompt.length > 600 then 2 else if prompt.length > 300 then 1 else 0

def c3ContextSizeScore (contextText : Str) : Nat :=
  if contextText.length > 200000 then 2 else if contextText.length > 100000 then 1 else 0

def c3CountScore (count : Nat) : Nat :=
  if count ≥ 20 then 3 else if count ≥ 8 then 2 else if count ≥ 4 then 2 else 0

def c3KeywordScore (prompt : Str) : Nat :=
  if ∃ k ∈ scopeKeywords, containsSub k (toLowerStr prompt) = true then 1 else 0

def c3Score (prompt contextText : Str) : Nat :=
  c3PromptLengthScore prompt + c3ContextSizeScore contextText
    + c3CountScore (extractRequestedCount (toLowerStr prompt)) + c3KeywordScore prompt

def c3Tier (prompt contextText : Str) : TaskExecutionTier :=
  if c3Score prompt contextText ≥ 5 then .tier3
  else if c3Score prompt contextText ≥ 3 then .tier2
  else .tier1

/-! ## Patch normalizer (src/extension.ts:730, 758) -/

/-- JS `Array.prototype.join("\n")`. -/
def joinNL : List Str → Str
  | [] => []
  | [x] => x
  | x :: y :: xs => x ++ '\n' :: joinNL (y :: xs)

/-- ensureDiffGitHeader (src/extension.ts:730). -/
def ensureDiffGitHeader (patch : Str) : Str :=
  if containsSub ("diff --git ".data) patch then patch
  else
    let lines := splitLinesCRLF patch
    match lines.find? (fun line => hasPrefixB ("--- ".data) line),
        lines.find? (fun line => hasPrefixB ("+++ ".data) line) with
    | some oldLine, some newLine =>
      let oldPath := trimStr (oldLine.drop 4)
      let newPath := trimStr (newLine.drop 4)
      let cleanOld := if hasPrefixB ("a/".data) oldPath then oldPath.drop 2 else oldPath
      let cleanNew := if hasPrefixB ("b/".data) newPath then newPath.drop 2 else newPath
      let aPath := if oldPath = "/dev/null".data then cleanNew else cleanOld
      let bPath := if newPath = "/dev/null".data then cleanOld else cleanNew
      let header :=
        if oldPath = "/dev/null".data then
          [("diff --git a/".data ++ aPath ++ " b/".data ++ bPath),
           "new file mode 100644".data]
        else if newPath = "/dev/null".data then
          [("diff --git a/".data ++ aPath ++ " b/".data ++ bPath),
           "deleted file mode 100644".data]
        else [("diff --git a/".data ++ aPath ++ " b/".data ++ bPath)]
      joinNL (header ++ lines)
    | _, _ => patch

/-- ensureTrailingNewline (src/extension.ts:758). -/
def ensureTrailingNewline (patch : Str) : Str :=
  if patch.isEmpty then patch
  else if patch.getLast? == some '\n' then patch
  else patch ++ ['\n']

/-- The §4.3 normalization pipeline the spec calls idempotent: header
synthesis followed by trailing-newline normalization. -/
def normalizeRawPatch (patch : Str) : Str :=
  ensureTrailingNewline (ensureDiffGitHeader patch)

/-! ## Patch classification helpers (src/extension.ts:189, 765, 790, 823, 828) -/

/-- isUnifiedDiff (src/extension.ts:189). -/
def isUnifiedDiff (text : Str) : Bool :=
  if text.isEmpty then false
  else containsSub ("diff --git ".data) text || containsSub ("--- ".data) text

/-- Matcher for the regex `/@@\s+-0,0\s+\+\d/` at a given position. -/
def newFileHunkFrom (l : Str) : Bool :=
  match l with
  | '@' :: '@' :: rest =>
    if (rest.takeWhile isWsChar).isEmpty then false
    else
      let r1 := rest.dropWhile isWsChar
      if hasPrefixB ("-0,0".data) r1 then
        let r2 := r1.drop 4
        if (r2.takeWhile isWsChar).isEmpty then false
        else
          match r2.dropWhile isWsChar with
          | '+' :: d :: _ => d.isDigit
          | _ => false
      else false
  | _ => false

/-- Test a predicate at every suffix position of a string (regex search). -/
def anyPosition (p : Str → Bool) : Str → Bool
  | [] => p []
  | c :: rest => p (c :: rest) || anyPosition p rest

/-- isNewFilePatch (src/extension.ts:790). -/
def isNewFilePatch (patch : Str) : Bool :=
  containsSub ("--- /dev/null".data) patch || anyPosition newFileHunkFrom patch

/-- The line-collection loop of extractNewFileContentFromPatch. -/
def collectAddedLines : List Str → Bool → List Str
  | [], _ => []
  | l :: rest, inHunk =>
    if hasPrefixB ("@@".data) l then collectAddedLines rest true
    else if !inHunk then collectAddedLines rest inHunk
    else if hasPrefixB ("+++".data) l then collectAddedLines rest inHunk
    else if hasPrefixB ("+".data) l then (l.drop 1) :: collectAddedLines rest inHunk
    else collectAddedLines rest inHunk

/-- extractNewFileContentFromPatch (src/extension.ts:765). -/
def extractNewFileContentFromPatch (patch : Str) : Option Str :=
  if !(isNewFilePatch patch) then none
  else
    let content := collectAddedLines (splitLinesCRLF patch) false
    if content.isEmpty then none else some (joinNL content)

/-- Split a string on occurrences of the triple-backtick fence, leftmost
and non-overlapping, as the regex engine finds them. -/
def splitFenceGo (acc : Str) : Str → List Str
  | [] => [acc.reverse]
  | c1 :: c2 :: c3 :: rest =>
    if hasPrefixB ("```".data) (c1 :: c2 :: c3 :: rest) then
      acc.reverse :: splitFenceGo [] rest
    else splitFenceGo (c1 :: acc) (c2 :: c3 :: rest)
  | c :: rest => splitFenceGo (c :: acc) rest

/-- stripCodeFences (src/extension.ts:828): each lazily matched
```…``` block keeps its interior and loses both fences; a final unpaired
fence survives. With `n` fences the segments are `s0..sn`; pairs are
consecutive, so all fences vanish except a trailing odd one. -/
def stripCodeFences (text : Str) : Str :=
  let segs := splitFenceGo [] text
  if (segs.length - 1) % 2 == 0 then segs.flatten
  else (segs.dropLast).flatten ++ "```".data ++ segs.getLastD []

/-- Character class `[a-zA-Z0-9_. slash dash]` of extractFilePathFromPrompt. -/
def isPathChar (c : Char) : Bool :=
  c.isAlpha || c.isDigit || c == '_' || c == '.' || c == '/' || c == '-'

/-- Alternation `(?:js|ts|…)` of extractFilePathFromPrompt, in regex
order. -/
def sourceFileExts : List Str :=
  ["js".data, "ts".data, "tsx".data, "jsx".data, "py".data, "java".data,
   "go".data, "rb".data, "rs".data, "cpp".data, "c".data, "h".data,
   "md".data, "json".data, "yaml".data, "yml".data]

/-- Greedy-with-backtracking match of `[a-zA-Z0-9_. slash dash]+\.(?:ext|…)` at a
fixed position: the class consumes `k` characters (largest first), then a
literal dot, then the first extension (in alternation order) that is a
prefix of the remainder. -/
def matchPathAtGo (l : Str) : Nat → Option Str
  | 0 => none
  | k + 1 =>
    (match l.drop (k + 1) with
     | '.' :: after =>
       match sourceFileExts.find? (fun e => hasPrefixB e after) with
       | some e => some (l.take (k + 1) ++ '.' :: e)
       | none => none
     | _ => none).orElse (fun _ => matchPathAtGo l k)

def matchPathAt (l : Str) : Option Str :=
  matchPathAtGo l (l.takeWhile isPathChar).length

def findPathGo : Str → Option Str
  | [] => none
  | c :: rest => (matchPathAt (c :: rest)).orElse (fun _ => findPathGo rest)

/-- extractFilePathFromPrompt (src/extension.ts:823): leftmost match of
`/([a-zA-Z0-9_. slash dash]+\.(?:js|ts|tsx|jsx|py|java|go|rb|rs|cpp|c|h|md|json|yaml|yml))/`. -/
def extractFilePathFromPrompt (prompt : Str) : Option Str :=
  findPathGo prompt

/-- Match of `\+\+\+\s+b\/(.+)$` at a position where `^` holds: literal
`+++`, at least one whitespace character (which in JS `\s` may include
newlines), then `b/`, then a non-empty capture running to the end of that
line. -/
def plusBCaptureFrom (l : Str) : Option Str :=
  if hasPrefixB ("+++".data) l then
    let u := l.drop 3
    if (u.takeWhile isWsChar).isEmpty then none
    else
      let v := u.dropWhile isWsChar
      if hasPrefixB ("b/".data) v then
        let cap := (v.drop 2).takeWhile (fun c => !(c == '\n'))
        if cap.isEmpty then none else some cap
      else none
  else none

/-- Apply a matcher at every position where a multiline `^` anchor holds
(start of string, or right after a newline), returning the leftmost
result. -/
def atLineStartsGo (f : Str → Option Str) : Bool → Str → Option Str
  | atStart, [] => if atStart then f [] else none
  | atStart, c :: rest =>
    (if atStart then f (c :: rest) else none).orElse
      (fun _ => atLineStartsGo f (c == '\n') rest)

def atLineStarts (f : Str → Option Str) (l : Str) : Option Str :=
  atLineStartsGo f true l

/-- Backtracking split for `^diff --git a\/(.+)\s+b\/(.+)$`: after the
literal prefix, the first capture takes `i` characters of the current
line (largest first), then whitespace, then `b/`, then a non-empty
capture running to the end of its line. -/
def gitSplitGo (t : Str) : Nat → Option Str
  | 0 => none
  | i + 1 =>
    (let u := t.drop (i + 1)
     if (u.takeWhile isWsChar).isEmpty then none
     else
       let v := u.dropWhile isWsChar
       if hasPrefixB ("b/".data) v then
         let cap := (v.drop 2).takeWhile (fun c => !(c == '\n'))
         if cap.isEmpty then none else some cap
       else none).orElse (fun _ => gitSplitGo t i)

def gitLineCaptureFrom (l : Str) : Option Str :=
  if hasPrefixB ("diff --git a/".data) l then
    let t := l.drop 13
    gitSplitGo t (t.takeWhile (fun c => !(c == '\n'))).length
  else none

/-- extractPrimaryFilePath (src/extension.ts:948): the `+++ b/` capture
when that regex matches (even if its trim comes out empty), otherwise the
second capture of the `diff --git` header line. -/
def extractPrimaryFilePath (patch : Str) : Option Str :=
  match atLineStarts plusBCaptureFrom patch with
  | some cap =>
    let t := trimStr cap
    if t.isEmpty then none else some t
  | none =>
    match atLineStarts gitLineCaptureFrom patch with
    | some cap =>
      let t := trimStr cap
      if t.isEmpty then none else some t
    | none => none

/-! ## Working tree model -/

/-- The repository working tree: an association list from paths to file
bodies (directories are implicit, as `fs.mkdir` with `recursive` never
fails). -/
abbrev World := List (Str × Str)

def lookupFile (w : World) (p : Str) : Option Str :=
  (w.find? (fun e => e.1 == p)).map (fun e => e.2)

def fileExists (w : World) (p : Str) : Bool := (lookupFile w p).isSome

def setFile (w : World) (p c : Str) : World :=
  (p, c) :: w.filter (fun e => !(e.1 == p))

def unlinkFile (w : World) (p : Str) : World :=
  w.filter (fun e => !(e.1 == p))

/-! ## Filesystem-dependent patch helpers (src/extension.ts:794, 803, 832, 874) -/

/-- writeFileFromNonPatchResponse (src/extension.ts:803): `some` of the
new world when the write happens, `none` when the function returns
false. -/
def writeFileFromNonPatchResponse (prompt : Str) (w : World) (content0 : Str) : Option World :=
  let content := trimStr (stripCodeFences content0)
  if content.isEmpty then none
  else
    match extractFilePathFromPrompt prompt with
    | none => none
    | some target => some (setFile w target (content ++ ['\n']))

/-- normalizePatchForNewFile (src/extension.ts:832). -/
def normalizePatchForNewFile (patch : Str) (w : World) : Str :=
  match extractPrimaryFilePath patch with
  | none => patch
  | some filePath =>
    if fileExists w filePath then patch
    else if containsSub ("/dev/null".data) patch then patch
    else
      let mapped := (splitLinesCRLF patch).map
        (fun l => if hasPrefixB ("--- a/".data) l then "--- /dev/null".data else l)
      let rewritten :=
        match mapped with
        | [] => []
        | l0 :: rest =>
          (if hasPrefixB ("diff --git ".data) l0
           then [l0, "new file mode 100644".data] else [l0]) ++ rest
      ensureTrailingNewline (joinNL rewritten)

/-- rewriteNewFilePatchForExistingFile (src/extension.ts:874). -/
def rewriteNewFilePatchForExistingFile (patch : Str) (w : World) : Option Str :=
  if !(containsSub ("new file mode".data) patch) then none
  else
    match atLineStarts plusBCaptureFrom patch with
    | none => none
    | some cap =>
      let filePath := trimStr cap
      if filePath.isEmpty then none
      else if !(fileExists w filePath) then none
      else
        let rewritten := ((splitLinesCRLF patch).filter
            (fun l => !(l == "new file mode 100644".data))).map
          (fun l => if hasPrefixB ("--- /dev/null".data) l
            then "--- a/".data ++ filePath else l)
        some (ensureTrailingNewline (joinNL rewritten))

/-! ## The patch application state machine (src/extension.ts:1063) -/

/-- The external collaborators one invocation of applyPatchFromClaude can
consult: the model responses for this step's patch, regeneration,
file-creation and file-replacement calls, and the git results for
validate+apply and three-way apply as functions of the patch content on
disk and the working tree. -/
structure ApplyEnv where
  genPatch : Str
  validateApply : Str → World → Except Str World
  threeWay : Str → World → Except Str World
  genRetryPatch : Str
  genCreateContent : Str
  genReplaceContent : Str

inductive Strategy
  | newFileShortCircuit
  | createMissingFile
  | directApply
  | rewriteExisting
  | threeWay
  | regenerate
  | replaceFile
deriving DecidableEq, Repr

inductive ApplyOutcome
  | emptyAllowed
  | wroteNonPatch
  | newFileWritten
  | createdViaModel
  | applied
  | appliedRewrittenNewFile
  | appliedThreeWay
  | appliedRegenerated
  | replacedViaModel
deriving DecidableEq, Repr

inductive ApplyError
  | notAPatch
  | cascadeFailed (patchPath details threeWayDetails : Str)
  | external (msg : Str)
deriving DecidableEq, Repr

/-- The messages the code throws (src/extension.ts:1098, 1110, 1212);
`external` is an error propagated raw from a collaborator call. -/
def renderApplyError : ApplyError → Str
  | .notAPatch => "Model response was not a patch.".data
  | .cascadeFailed patchPath details threeWayDetails =>
    "The model returned an invalid patch. We saved it to ".data ++ patchPath
      ++ ".\n".data ++ details
      ++ (if threeWayDetails.isEmpty then [] else '\n' :: threeWayDetails)
  | .external msg => msg

instance {ε α : Type} [DecidableEq ε] [DecidableEq α] : DecidableEq (Except ε α) :=
  fun x y =>
    match x, y with
    | .ok a, .ok b => if h : a = b then .isTrue (by rw [h]) else .isFalse (by simp [h])
    | .error a, .error b => if h : a = b then .isTrue (by rw [h]) else .isFalse (by simp [h])
    | .ok _, .error _ => .isFalse (by simp)
    | .error _, .ok _ => .isFalse (by simp)

structure ApplyResult where
  world : World
  outcome : Except ApplyError ApplyOutcome
  trace : List (Strategy × Bool)
  artifactCreated : Bool
deriving DecidableEq, Repr

def artifactName (stepLabel : Str) : Str :=
  ".llm-pr-assistant.".data ++ stepLabel ++ ".patch".data

/-- regeneratePatchWithFreshFileContext (src/extension.ts:910): requires a
primary file that exists on disk, normalizes the regenerated response and
rejects it when blank. -/
def regeneratePatchWithFreshFileContext (env : ApplyEnv) (prompt : Str) (w : World)
    (originalPatch : Str) : Option Str :=
  match (extractPrimaryFilePath originalPatch).orElse
      (fun _ => extractFilePathFromPrompt prompt) with
  | none => none
  | some filePath =>
    match lookupFile w filePath with
    | none => none
    | some _ =>
      let normalized := ensureTrailingNewline (ensureDiffGitHeader env.genRetryPatch)
      if (trimStr normalized).isEmpty then none else some normalized

/-- createFileFromClaudeIfMissing (src/extension.ts:969): `some` of the
new world when the file was created. -/
def createFileFromClaudeIfMissing (env : ApplyEnv) (prompt : Str) (w : World)
    (originalPatch : Str) : Option World :=
  match (extractPrimaryFilePath originalPatch).orElse
      (fun _ => extractFilePathFromPrompt prompt) with
  | none => none
  | some filePath =>
    if fileExists w filePath then none
    else if (trimStr env.genCreateContent).isEmpty then none
    else some (setFile w filePath (env.genCreateContent ++ ['\n']))

/-- replaceFileFromClaudeOnFailure (src/extension.ts:1006): `some` of the
new world when the file was overwritten. -/
def replaceFileFromClaudeOnFailure (env : ApplyEnv) (prompt : Str) (w : World)
    (originalPatch : Str) : Option World :=
  match (extractPrimaryFilePath originalPatch).orElse
      (fun _ => extractFilePathFromPrompt prompt) with
  | none => none
  | some filePath =>
    match lookupFile w filePath with
    | none => none
    | some _ =>
      if (trimStr env.genReplaceContent).isEmpty then none
      else some (setFile w filePath (env.genReplaceContent ++ ['\n']))

/-- The tail of the cascade after the regeneration attempt
(src/extension.ts:1184-1217): file creation, whole-file replacement, then
the terminal error preserving the patch artifact. -/
def fallbackCreateReplace (env : ApplyEnv) (prompt : Str)
    (patchPath normalizedPatch details threeWayDetails : Str)
    (t : List (Strategy × Bool)) (w : World) : ApplyResult :=
  match createFileFromClaudeIfMissing env prompt w normalizedPatch with
  | some w2 =>
    ⟨unlinkFile w2 patchPath, .ok .createdViaModel,
     t ++ [(.createMissingFile, true)], true⟩
  | none =>
    match replaceFileFromClaudeOnFailure env prompt w normalizedPatch with
    | some w2 =>
      ⟨unlinkFile w2 patchPath, .ok .replacedViaModel,
       t ++ [(.createMissingFile, false), (.replaceFile, true)], true⟩
    | none =>
      ⟨w, .error (.cascadeFailed patchPath details threeWayDetails),
       t ++ [(.createMissingFile, false), (.replaceFile, false)], true⟩

/-- The try/catch cascade of applyPatchFromClaude
(src/extension.ts:1143-1218), entered with the patch artifact already on
disk: direct validate+apply, the rewrite of a stale new-file patch for an
existing file (whose validate+apply errors propagate raw), three-way
merge, regeneration, then `fallbackCreateReplace`. -/
def runCascade (env : ApplyEnv) (prompt : Str) (patchPath normalizedPatch : Str)
    (t0 : List (Strategy × Bool)) (w1 : World) : ApplyResult :=
  match env.validateApply normalizedPatch w1 with
  | .ok w2 =>
    ⟨unlinkFile w2 patchPath, .ok .applied, t0 ++ [(.directApply, true)], true⟩
  | .error details =>
    match rewriteNewFilePatchForExistingFile normalizedPatch w1 with
    | some rewritten =>
      let w2 := setFile w1 patchPath rewritten
      (match env.validateApply rewritten w2 with
       | .ok w3 =>
         ⟨unlinkFile w3 patchPath, .ok .appliedRewrittenNewFile,
          t0 ++ [(.directApply, false), (.rewriteExisting, true)], true⟩
       | .error msg =>
         ⟨w2, .error (.external msg),
          t0 ++ [(.directApply, false), (.rewriteExisting, false)], true⟩)
    | none =>
      match env.threeWay normalizedPatch w1 with
      | .ok w2 =>
        ⟨unlinkFile w2 patchPath, .ok .appliedThreeWay,
         t0 ++ [(.directApply, false), (.threeWay, true)], true⟩
      | .error threeWayDetails =>
        match regeneratePatchWithFreshFileContext env prompt w1 normalizedPatch with
        | some refreshed =>
          let w2 := setFile w1 patchPath refreshed
          (match env.validateApply refreshed w2 with
           | .ok w3 =>
             ⟨unlinkFile w3 patchPath, .ok .appliedRegenerated,
              t0 ++ [(.directApply, false), (.threeWay, false), (.regenerate, true)], true⟩
           | .error _ =>
             fallbackCreateReplace env prompt patchPath normalizedPatch details
               threeWayDetails
               (t0 ++ [(.directApply, false), (.threeWay, false), (.regenerate, false)]) w2)
        | none =>
          fallbackCreateReplace env prompt patchPath normalizedPatch details
            threeWayDetails
            (t0 ++ [(.directApply, false), (.threeWay, false)]) w1

/-- The normalized patch applyPatchFromClaude derives from the model
response against the initial working tree (src/extension.ts:1089). -/
def normalizedPatchOf (env : ApplyEnv) (w0 : World) : Str :=
  normalizePatchForNewFile (ensureTrailingNewline (ensureDiffGitHeader env.genPatch)) w0

/-- applyPatchFromClaude (src/extension.ts:1063): empty-response handling,
non-diff direct write, artifact creation, the missing-primary-file
short-circuits, then the cascade. The result records the final working
tree, the outcome or thrown error, the strategies whose application step
ran (with their success), and whether the patch artifact was ever
written. -/
def applyPatchFromClaude (env : ApplyEnv) (prompt _contextText stepLabel : Str)
    (allowEmpty : Bool) (w0 : World) : ApplyResult :=
  let normalizedPatch := normalizedPatchOf env w0
  if (trimStr normalizedPatch).isEmpty then
    if allowEmpty then ⟨w0, .ok .emptyAllowed, [], false⟩
    else ⟨w0, .error .notAPatch, [], false⟩
  else if !(isUnifiedDiff normalizedPatch) then
    match writeFileFromNonPatchResponse prompt w0 normalizedPatch with
    | some w1 => ⟨w1, .ok .wroteNonPatch, [], false⟩
    | none => ⟨w0, .error .notAPatch, [], false⟩
  else
    let patchPath := artifactName stepLabel
    let w1 := setFile w0 patchPath normalizedPatch
    match extractPrimaryFilePath normalizedPatch with
    | some primaryFile =>
      if !(fileExists w1 primaryFile) then
        match (extractNewFileContentFromPatch normalizedPatch).filter
            (fun s => !s.isEmpty) with
        | some contentFromPatch =>
          let w2 := setFile w1 primaryFile (ensureTrailingNewline contentFromPatch)
          ⟨unlinkFile w2 patchPath, .ok .newFileWritten,
           [(.newFileShortCircuit, true)], true⟩
        | none =>
          match createFileFromClaudeIfMissing env prompt w1 normalizedPatch with
          | some w2 =>
            ⟨unlinkFile w2 patchPath, .ok .createdViaModel,
             [(.createMissingFile, true)], true⟩
          | none =>
            runCascade env prompt patchPath normalizedPatch
              [(.createMissingFile, false)] w1
      else runCascade env prompt patchPath normalizedPatch [] w1
    | none => runCascade env prompt patchPath normalizedPatch [] w1

/-! ## Single-shot fallback policy (src/extension.ts:494, 1294) -/

/-- shouldFallbackToPlan (src/extension.ts:1294). -/
def shouldFallbackToPlan (raw : Str) : Bool :=
  containsSub ("Model response was not a patch".data) raw ||
  containsSub ("The model returned an invalid patch".data) raw

inductive SingleShotNext
  | enteredPlanning
  | fatal (e : ApplyError)
deriving DecidableEq, Repr

/-- The catch block of the TIER_1 branch of runGeneratePrompt
(src/extension.ts:509-528): fall back to plan mode exactly when
shouldFallbackToPlan accepts the error message, otherwise rethrow. -/
def singleShotFailureNext (e : ApplyError) : SingleShotNext :=
  if shouldFallbackToPlan (renderApplyError e) then .enteredPlanning else .fatal e

/-- The single-shot attempt itself (src/extension.ts:499-508): top level
always passes `allowEmpty = false`. -/
def runSingleShotAttempt (env : ApplyEnv) (prompt contextText : Str) (w : World) :
    ApplyResult :=
  applyPatchFromClaude env prompt contextText ("single-shot".data) false w

/-! ## Plan runner (src/extension.ts:1222) -/

structure ClaudePlanStep where
  title : Str
  instruction : Str
deriving DecidableEq, Repr

/-- buildStepPrompt (src/extension.ts:1048). -/
def buildStepPrompt (originalPrompt : Str) (step : ClaudePlanStep)
    (index total : Nat) : Str :=
  "Original request:\n".data ++ originalPrompt ++ "\n\n".data
    ++ "Step ".data ++ natToStr index ++ " of ".data ++ natToStr total
    ++ ": ".data ++ step.title
    ++ "\n".data ++ "Instruction:\n".data ++ step.instruction ++ "\n\n".data
    ++ "Only make changes required for this step. Do not repeat previous steps.".data

/-- One executed (or attempted) plan step: its 0-based position, the
context it saw, the working tree before and after it, and whether its
application succeeded. -/
structure PlanStepRec where
  index : Nat
  ctxSeen : Str
  worldBefore : World
  worldAfter : World
  succeeded : Bool
deriving DecidableEq, Repr

def defaultPlanStepRec : PlanStepRec := ⟨0, [], [], [], false⟩

structure PlanRunResult where
  records : List PlanStepRec
  world : World
  err : Option ApplyError
deriving DecidableEq, Repr

/-- The scratch label of step `i` (0-based): the code passes
`step-` followed by the 1-based index. -/
def stepLabelOf (i : Nat) : Str := "step-".data ++ natToStr (i + 1)

/-- The step loop of runPlanExecute (src/extension.ts:1273-1291): steps in
order, `allowEmpty = true` on every application, context rebuilt from the
working tree after each step, and the first thrown error propagated
immediately. `envs i` is the collaborator environment step `i`
consults. -/
def runPlanStepsGo (envs : Nat → ApplyEnv) (buildCtx : World → Str)
    (prompt : Str) (total : Nat) : Nat → List ClaudePlanStep → Str → World → PlanRunResult
  | _, [], _, w => ⟨[], w, none⟩
  | i, step :: rest, contextText, w =>
    let stepPrompt := buildStepPrompt prompt step (i + 1) total
    let r := applyPatchFromClaude (envs i) stepPrompt contextText
      (stepLabelOf i) true w
    match r.outcome with
    | .error e => ⟨[⟨i, contextText, w, r.world, false⟩], r.world, some e⟩
    | .ok _ =>
      let rst := runPlanStepsGo envs buildCtx prompt total (i + 1) rest
        (buildCtx r.world) r.world
      ⟨⟨i, contextText, w, r.world, true⟩ :: rst.records, rst.world, rst.err⟩

/-- runPlanExecute (src/extension.ts:1222): an empty plan is the fatal
"Failed to generate execution plan." error, otherwise the steps run. -/
def runPlanExecute (envs : Nat → ApplyEnv) (buildCtx : World → Str)
    (prompt : Str) (plan : List ClaudePlanStep) (contextText : Str) (w : World) :
    Except Str PlanRunResult :=
  if plan.isEmpty then .error ("Failed to generate execution plan.".data)
  else .ok (runPlanStepsGo envs buildCtx prompt plan.length 0 plan contextText w)

/-! ## Claim-side predicates -/

/-- The strict strategy order claimed by spec §4.4 (the code's extra
rewrite strategy sits outside the spec's six and is placed last). -/
def specStrategyOrder : Strategy → Nat
  | .directApply => 1
  | .newFileShortCircuit => 2
  | .threeWay => 3
  | .regenerate => 4
  | .createMissingFile => 5
  | .replaceFile => 6
  | .rewriteExisting => 7

def strictlyIncreasingB : List Nat → Bool
  | [] => true
  | [_] => true
  | a :: b :: rest => decide (a < b) && strictlyIncreasingB (b :: rest)

/-- Claim C1's ordering assertion: the strategies a run attempts appear in
strictly increasing spec order. -/
def c1SpecOrdered (r : ApplyResult) : Bool :=
  strictlyIncreasingB ((r.trace.map Prod.fst).map specStrategyOrder)

/-- `isSublistOf a b` holds when `a` is a subsequence of `b` (order
preserved, elements possibly skipped). -/
def isSublistOf : List Strategy → List Strategy → Bool
  | [], _ => true
  | _ :: _, [] => false
  | a :: as, b :: bs => if a = b then isSublistOf as bs else isSublistOf (a :: as) bs

/-- The order the code actually tries application steps in; a run's trace
is always a sublist of this. `createMissingFile` appears twice because
the missing-primary-file pre-block and the post-three-way fallback both
invoke it. -/
def codeStrategyOrder : List Strategy :=
  [.newFileShortCircuit, .createMissingFile, .directApply, .rewriteExisting,
   .threeWay, .regenerate, .createMissingFile, .replaceFile]

/-- Every strategy before the last attempted one failed, and a successful
run's last attempted strategy (when any strategy ran at all) succeeded. -/
def stopsAtFirstSuccess (r : ApplyResult) : Bool :=
  (r.trace.dropLast.all (fun e => e.2 == false)) &&
  (!(r.outcome.isOk) || r.trace.isEmpty ||
    (r.trace.getLastD (.directApply, false)).2)

/-- The chaining invariant of plan execution: the first step sees the
initial context and working tree, and each later step sees exactly the
context rebuilt from (and the working tree left by) its predecessor. -/
def planChainOk (buildCtx : World → Str) : Str → World → List PlanStepRec → Bool
  | _, _, [] => true
  | ctx, w, rec :: rest =>
    rec.ctxSeen == ctx && rec.worldBefore == w &&
      planChainOk buildCtx (buildCtx rec.worldAfter) rec.worldAfter rest

/-! ## Concrete environments used by counterexamples and witnesses -/

/-- A deletion-only diff against a missing file: the machine consults the
file-creation collaborator (strategy 5) and then direct apply (strategy
1), out of the spec's order. -/
def envC1x : ApplyEnv :=
  { genPatch := "--- a/zz.md\n+++ b/zz.md\n@@ -1 +0,0 @@\n-x\n".data
    validateApply := fun _ _ => .error ("boom-direct".data)
    threeWay := fun _ w => .ok w
    genRetryPatch := [], genCreateContent := [], genReplaceContent := [] }

/-- An edit diff against an existing file whose direct apply fails and
whose three-way merge succeeds. -/
def envC1w : ApplyEnv :=
  { genPatch := "--- a/w1.md\n+++ b/w1.md\n@@ -1 +1 @@\n-old\n+new\n".data
    validateApply := fun _ _ => .error ("direct failed".data)
    threeWay := fun _ w => .ok (setFile w ("w1.md".data) ("new".data))
    genRetryPatch := [], genCreateContent := [], genReplaceContent := [] }

/-- An edit diff against an existing file for which every cascade strategy
fails. -/
def envC6w : ApplyEnv :=
  { genPatch := "--- a/f.md\n+++ b/f.md\n@@ -1 +1 @@\n-old\n+new\n".data
    validateApply := fun _ _ => .error ("E1".data)
    threeWay := fun _ _ => .error ("E2".data)
    genRetryPatch := [], genCreateContent := [], genReplaceContent := [] }

/-- A new-file diff against a missing file: the new-file short-circuit
(strategy 2) succeeds, after the artifact was already written. -/
def envC7x : ApplyEnv :=
  { genPatch := "--- a/nf.md\n+++ b/nf.md\n@@ -0,0 +1 @@\n+hello\n".data
    validateApply := fun _ _ => .error ("E1".data)
    threeWay := fun _ _ => .error ("E2".data)
    genRetryPatch := [], genCreateContent := [], genReplaceContent := [] }

/-- Same shape as `envC1w`, reserved for claim C7's witness. -/
def envC7w : ApplyEnv :=
  { genPatch := "--- a/w7.md\n+++ b/w7.md\n@@ -1 +1 @@\n-old\n+new\n".data
    validateApply := fun _ _ => .error ("direct failed".data)
    threeWay := fun _ w => .ok (setFile w ("w7.md".data) ("new".data))
    genRetryPatch := [], genCreateContent := [], genReplaceContent := [] }

/-- An all-whitespace model response. -/
def envC8w : ApplyEnv :=
  { genPatch := "   ".data
    validateApply := fun _ _ => .error ("E1".data)
    threeWay := fun _ _ => .error ("E2".data)
    genRetryPatch := [], genCreateContent := [], genReplaceContent := [] }

/-- A response that is only a pair of code fences: non-empty, not a
unified diff, and empty once fences are stripped. -/
def envC10x : ApplyEnv :=
  { genPatch := "``````".data
    validateApply := fun _ _ => .error ("E1".data)
    threeWay := fun _ _ => .error ("E2".data)
    genRetryPatch := [], genCreateContent := [], genReplaceContent := [] }

/-- A plain-prose response (not a diff), for the non-patch direct-write
path. -/
def envC10w : ApplyEnv :=
  { genPatch := "hello world content".data
    validateApply := fun _ _ => .error ("E1".data)
    threeWay := fun _ _ => .error ("E2".data)
    genRetryPatch := [], genCreateContent := [], genReplaceContent := [] }

/-- Plan-runner environments for claim C5's witness: step 0 writes a file
via the non-patch path, step 1 fails with a non-diff response, step 2
never runs. -/
def envC5wStep0 : ApplyEnv :=
  { genPatch := "hello world content".data
    validateApply := fun _ _ => .error ("E1".data)
    threeWay := fun _ _ => .error ("E2".data)
    genRetryPatch := [], genCreateContent := [], genReplaceContent := [] }

def envC5wStep1 : ApplyEnv :=
  { genPatch := "xyz".data
    validateApply := fun _ _ => .error ("E1".data)
    threeWay := fun _ _ => .error ("E2".data)
    genRetryPatch := [], genCreateContent := [], genReplaceContent := [] }

def envsC5w : Nat → ApplyEnv := fun i => if i == 0 then envC5wStep0 else envC5wStep1

def planC5w : List ClaudePlanStep :=
  [⟨"t1".data, "write foo.md please".data⟩,
   ⟨"t2".data, "break".data⟩,
   ⟨"t3".data, "never".data⟩]

def buildCtxC5w : World → Str := fun w => natToStr w.length

/-- Whitespace-response plan environments for claim C8's witness. -/
def envsC8w : Nat → ApplyEnv := fun _ => envC8w

def planC8w : List ClaudePlanStep := [⟨"t1".data, "noop".data⟩]

/-! ## Shared lemmas about the string helpers -/

theorem hasPrefixB_correct : ∀ pre l : Str, hasPrefixB pre l = true ↔ pre <+: l
  | [], l => by simp [hasPrefixB]
  | a :: pre, [] => by simp [hasPrefixB]
  | a :: pre, b :: l => by
    rw [hasPrefixB, Bool.and_eq_true, beq_iff_eq, hasPrefixB_correct pre l,
      List.cons_prefix_cons]

theorem containsSub_correct (n : Str) : ∀ h : Str, containsSub n h = true ↔ n <:+: h := by
  intro h
  induction h with
  | nil => simp [containsSub, List.infix_nil, List.isEmpty_iff]
  | cons c rest ih =>
    simp [containsSub, hasPrefixB_correct, ih, List.infix_cons_iff]

theorem containsSub_append (n a b : Str) (h : containsSub n a = true) :
    containsSub n (a ++ b) = true := by
  rw [containsSub_correct] at h ⊢
  exact h.trans ⟨[], b, by simp⟩

theorem etn_cases (p : Str) :
    ensureTrailingNewline p = p ∨ ensureTrailingNewline p = p ++ ['\n'] := by
  unfold ensureTrailingNewline
  split_ifs <;> simp

theorem etn_idem (p : Str) :
    ensureTrailingNewline (ensureTrailingNewline p) = ensureTrailingNewline p := by
  by_cases h1 : p.isEmpty
  · simp [ensureTrailingNewline, h1]
  · by_cases h2 : (p.getLast? == some '\n') = true
    · simp [ensureTrailingNewline, h1, h2]
    · have hne : (p ++ ['\n']).isEmpty = false := by
        cases p <;> simp
      simp [ensureTrailingNewline, h1, h2, hne, List.getLast?_concat]

theorem stripRevCR_eq (acc : Str) : stripRevCR acc = stripEndCR acc.reverse := by
  cases acc with
  | nil => simp [stripRevCR, stripEndCR]
  | cons c tl =>
    by_cases hc : c = '\r' <;>
      simp [stripRevCR, stripEndCR, List.getLast?_concat, List.dropLast_concat, hc]

theorem stripEndCR_isPre (x : Str) : stripEndCR x <+: x := by
  unfold stripEndCR
  match hx : x.getLast? with
  | some c =>
    by_cases hc : c = '\r' <;> simp [hc, List.dropLast_prefix]
  | none => simp

theorem splitGo_append_nl (l : Str) : ∀ acc : Str,
    ∃ front last, splitLinesCRLFGo acc l = front ++ [last] ∧
      splitLinesCRLFGo acc (l ++ ['\n']) = front ++ [stripEndCR last, []] := by
  induction l with
  | nil =>
    intro acc
    refine ⟨[], acc.reverse, by simp [splitLinesCRLFGo], ?_⟩
    simp [splitLinesCRLFGo, stripRevCR_eq]
  | cons c rest ih =>
    intro acc
    by_cases hc : c = '\n'
    · subst hc
      obtain ⟨front, last, h1, h2⟩ := ih []
      exact ⟨stripRevCR acc :: front, last, by simp [splitLinesCRLFGo, h1],
        by simp [splitLinesCRLFGo, h2]⟩
    · obtain ⟨front, last, h1, h2⟩ := ih (c :: acc)
      exact ⟨front, last, by simp [splitLinesCRLFGo, hc, h1],
        by simp [splitLinesCRLFGo, hc, h2]⟩

theorem find_marker_none_append_nl (m : Str) (hm : m ≠ []) (p : Str)
    (h : (splitLinesCRLF p).find? (fun l => hasPrefixB m l) = none) :
    (splitLinesCRLF (p ++ ['\n'])).find? (fun l => hasPrefixB m l) = none := by
  obtain ⟨front, last, h1, h2⟩ := splitGo_append_nl p []
  unfold splitLinesCRLF at h ⊢
  rw [h2]
  rw [h1, List.find?_eq_none] at h
  rw [List.find?_eq_none]
  intro x hx
  rcases List.mem_append.mp hx with hx | hx
  · exact h x (List.mem_append.mpr (Or.inl hx))
  · have hlast : hasPrefixB m last ≠ true := h last (List.mem_append.mpr (Or.inr (by simp)))
    rcases List.mem_cons.mp hx with rfl | hx
    · intro hcontra
      exact hlast (by
        rw [hasPrefixB_correct] at hcontra ⊢
        exact hcontra.trans (stripEndCR_isPre last))
    · have hxnil : x = [] := by simpa using hx
      subst hxnil
      cases m with
      | nil => exact absurd rfl hm
      | cons a m' => simp [hasPrefixB]

theorem contains_of_isPre {n h : Str} (hx : n <+: h) : containsSub n h = true := by
  rw [containsSub_correct]
  obtain ⟨t, ht⟩ := hx
  exact ⟨[], t, by simpa using ht⟩

theorem joinNL_isPre (x : Str) (xs : List Str) : x <+: joinNL (x :: xs) := by
  cases xs with
  | nil => simp [joinNL]
  | cons y ys => exact ⟨'\n' :: joinNL (y :: ys), rfl⟩

theorem git_header_starts (aPath bPath : Str) :
    ("diff --git ".data) <+: ("diff --git a/".data ++ aPath ++ " b/".data ++ bPath) := by
  have hA : ("diff --git ".data) <+: ("diff --git a/".data) := by decide
  exact hA.trans (((List.prefix_append _ _).trans (List.prefix_append _ _)).trans
    (List.prefix_append _ _))

theorem contains_git_join (x : Str) (hx : ("diff --git ".data) <+: x) (xs : List Str) :
    containsSub ("diff --git ".data) (joinNL (x :: xs)) = true :=
  contains_of_isPre (hx.trans (joinNL_isPre x xs))

theorem edgh_of_contains (p : Str)
    (h : containsSub ("diff --git ".data) p = true) : ensureDiffGitHeader p = p := by
  unfold ensureDiffGitHeader
  rw [if_pos h]

theorem edgh_eq_of_missing (p : Str)
    (hmiss : (splitLinesCRLF p).find? (fun l => hasPrefixB ("--- ".data) l) = none ∨
      (splitLinesCRLF p).find? (fun l => hasPrefixB ("+++ ".data) l) = none) :
    ensureDiffGitHeader p = p := by
  unfold ensureDiffGitHeader
  by_cases hc : containsSub ("diff --git ".data) p = true
  · rw [if_pos hc]
  · rw [if_neg hc]
    dsimp only
    split
    · rename_i oldLine newLine h1 h2
      rcases hmiss with hm | hm
      · rw [hm] at h1; exact Option.noConfusion h1
      · rw [hm] at h2; exact Option.noConfusion h2
    · rfl

theorem edgh_cases (p : Str) :
    containsSub ("diff --git ".data) (ensureDiffGitHeader p) = true ∨
    (ensureDiffGitHeader p = p ∧
     ((splitLinesCRLF p).find? (fun l => hasPrefixB ("--- ".data) l) = none ∨
      (splitLinesCRLF p).find? (fun l => hasPrefixB ("+++ ".data) l) = none)) := by
  by_cases hc : containsSub ("diff --git ".data) p = true
  · left; rw [edgh_of_contains p hc]; exact hc
  · cases h1 : (splitLinesCRLF p).find? (fun l => hasPrefixB ("--- ".data) l) with
    | none => exact Or.inr ⟨edgh_eq_of_missing p (Or.inl h1), Or.inl rfl⟩
    | some oldLine =>
      cases h2 : (splitLinesCRLF p).find? (fun l => hasPrefixB ("+++ ".data) l) with
      | none => exact Or.inr ⟨edgh_eq_of_missing p (Or.inr h2), Or.inr rfl⟩
      | some newLine =>
        left
        unfold ensureDiffGitHeader
        rw [if_neg hc]
        simp only [h1, h2]
        split_ifs <;>
          exact contains_git_join _ (git_header_starts _ _) _

/-! ## Claim C9 - normalizer idempotence and header synthesis -/

/-- Claim C9: normalization (header synthesis then trailing-newline
normalization) is idempotent, and the sample diff lacking its
`diff --git` line gains the synthesized header
`diff --git a/x.txt b/x.txt`. -/
theorem c9_normalizer_idempotent :
    (∀ p : Str, normalizeRawPatch (normalizeRawPatch p) = normalizeRawPatch p) ∧
    hasPrefixB ("diff --git a/x.txt b/x.txt\n".data)
      (normalizeRawPatch ("--- a/x.txt\n+++ b/x.txt\n@@ -1 +1 @@\n-a\n+b".data)) = true := by
  constructor
  · intro p
    unfold normalizeRawPatch
    rcases edgh_cases p with hc | ⟨heq, hmiss⟩
    · have hq : containsSub ("diff --git ".data)
          (ensureTrailingNewline (ensureDiffGitHeader p)) = true := by
        rcases etn_cases (ensureDiffGitHeader p) with he | he <;> rw [he]
        · exact hc
        · exact containsSub_append _ _ _ hc
      rw [edgh_of_contains _ hq, etn_idem]
    · rw [heq]
      rcases etn_cases p with he | he
      · rw [he, heq]; exact he
      · rw [he]
        have hedgh : ensureDiffGitHeader (p ++ ['\n']) = p ++ ['\n'] := by
          apply edgh_eq_of_missing
          rcases hmiss with hm | hm
          · exact Or.inl (find_marker_none_append_nl _ (by decide) p hm)
          · exact Or.inr (find_marker_none_append_nl _ (by decide) p hm)
        rw [hedgh]
        have hne : (p ++ ['\n']).isEmpty = false := by cases p <;> simp
        simp [ensureTrailingNewline, hne, List.getLast?_concat]
  · decide

/-! ## Claim C1 - cascade strategy order -/

/-- Claim C1 counterexample: on a deletion-only diff whose primary file is
missing, the machine consults the file-creation collaborator (spec
strategy 5) and only then direct apply (spec strategy 1), so the attempted
strategies are not in the spec's strict order. -/
theorem c1_cascade_order_counterexample :
    c1SpecOrdered (applyPatchFromClaude envC1x ("p".data) ("c".data) ("s".data)
      false []) = false := by decide

/-- Claim C1 (amended): the cascade stops at the first success and never
runs a strategy after a success, but its order is the code's: when the
primary file is missing, the new-file short-circuit and model file
creation run before direct apply; then direct apply, the new-file-patch
rewrite, three-way merge, regeneration, file creation and whole-file
replacement. Every run's attempted strategies form a subsequence of that
order. -/
theorem c1_cascade_order_amended (env : ApplyEnv)
    (prompt contextText stepLabel : Str) (allowEmpty : Bool) (w0 : World) :
    isSublistOf
      ((applyPatchFromClaude env prompt contextText stepLabel allowEmpty w0).trace.map
        Prod.fst) codeStrategyOrder = true ∧
    stopsAtFirstSuccess
      (applyPatchFromClaude env prompt contextText stepLabel allowEmpty w0) = true := by
  unfold applyPatchFromClaude runCascade fallbackCreateReplace
  dsimp only
  repeat' split
  all_goals (dsimp only [stopsAtFirstSuccess, Except.isOk, Except.toBool]; exact ⟨by decide, by decide⟩)

/-- Witness for the amended claim C1 at a concrete environment whose
direct apply fails and whose three-way merge succeeds. -/
theorem c1_cascade_order_amended_witness :
    isSublistOf
      ((applyPatchFromClaude envC1w ("p".data) ("c".data) ("s".data) false []).trace.map
        Prod.fst) codeStrategyOrder = true ∧
    stopsAtFirstSuccess
      (applyPatchFromClaude envC1w ("p".data) ("c".data) ("s".data) false []) = true :=
  c1_cascade_order_amended envC1w ("p".data) ("c".data) ("s".data) false []

theorem lookupFile_unlink (w : World) (p : Str) :
    lookupFile (unlinkFile w p) p = none := by
  have h : (unlinkFile w p).find? (fun e => e.1 == p) = none := by
    rw [List.find?_eq_none]
    intro x hx
    have hxm := (List.mem_filter.mp hx).2
    simpa using hxm
  simp [lookupFile, h]

theorem lookupFile_setFile_same (w : World) (p c : Str) :
    lookupFile (setFile w p c) p = some c := by
  have hpos : ((fun (e : Str × Str) => e.1 == p) (p, c)) = true := by simp
  simp [lookupFile, setFile, List.find?_cons_of_pos _ hpos]

/-! ## Claim C7 - patch artifact lifecycle -/

/-- Claim C7 counterexample: a run that succeeds via the new-file
short-circuit (spec strategy 2) has nevertheless created a patch
artifact, because the artifact is written to disk before the
missing-primary-file check; the spec says strategies 2, 5, 6 never create
one. -/
theorem c7_artifact_counterexample :
    (applyPatchFromClaude envC7x ("p".data) ("c".data) ("s".data) false []).outcome
      = .ok .newFileWritten ∧
    (applyPatchFromClaude envC7x ("p".data) ("c".data) ("s".data) false []).artifactCreated
      = true := ⟨by decide, by decide⟩

/-- Claim C7 (amended): every successful invocation that wrote a patch
artifact deletes it before returning, so no artifact remains on success
(in particular a patch failing direct apply but succeeding three-way);
but the artifact is created exactly when the normalized response is a
non-empty unified diff, including runs that end in strategies 2, 5 or 6 —
only the empty-response and non-patch direct-write paths never create
one. -/
theorem c7_artifact_cleanup (env : ApplyEnv) (prompt contextText stepLabel : Str)
    (allowEmpty : Bool) (w0 : World) :
    ((applyPatchFromClaude env prompt contextText stepLabel allowEmpty w0).outcome.isOk = true →
      (applyPatchFromClaude env prompt contextText stepLabel allowEmpty w0).artifactCreated = true →
      lookupFile (applyPatchFromClaude env prompt contextText stepLabel allowEmpty w0).world
        (artifactName stepLabel) = none) ∧
    ((applyPatchFromClaude env prompt contextText stepLabel allowEmpty w0).artifactCreated
      = (!(trimStr (normalizedPatchOf env w0)).isEmpty &&
         isUnifiedDiff (normalizedPatchOf env w0))) := by
  unfold applyPatchFromClaude runCascade fallbackCreateReplace
  dsimp only
  repeat' split
  all_goals refine ⟨fun hok hart => ?_, ?_⟩
  all_goals first
    | exact lookupFile_unlink _ _
    | simp_all [Except.isOk, Except.toBool]

/-- Witness for the amended claim C7: a patch failing direct apply but
succeeding three-way leaves no artifact behind. -/
theorem c7_artifact_cleanup_witness :
    lookupFile (applyPatchFromClaude envC7w ("p".data) ("c".data) ("s".data) false []).world
      (artifactName ("s".data)) = none :=
  (c7_artifact_cleanup envC7w ("p".data) ("c".data) ("s".data) false []).1
    (by decide) (by decide)

theorem containsSub_nil (h : Str) : containsSub [] h = true := by
  cases h <;> simp [containsSub, hasPrefixB]

theorem render_cascade_carries (pp d t : Str) :
    containsSub pp (renderApplyError (.cascadeFailed pp d t)) = true ∧
    containsSub d (renderApplyError (.cascadeFailed pp d t)) = true ∧
    containsSub t (renderApplyError (.cascadeFailed pp d t)) = true := by
  refine ⟨?_, ?_, ?_⟩
  · rw [containsSub_correct]
    exact ⟨"The model returned an invalid patch. We saved it to ".data,
      ".\n".data ++ d ++ (if t.isEmpty then [] else '\n' :: t),
      by simp [renderApplyError, List.append_assoc]⟩
  · rw [containsSub_correct]
    exact ⟨"The model returned an invalid patch. We saved it to ".data ++ pp
        ++ ".\n".data,
      (if t.isEmpty then [] else '\n' :: t),
      by simp [renderApplyError, List.append_assoc]⟩
  · by_cases ht : t.isEmpty
    · have hnil : t = [] := by simpa using ht
      subst hnil
      exact containsSub_nil _
    · rw [containsSub_correct]
      refine ⟨"The model returned an invalid patch. We saved it to ".data ++ pp
          ++ ".\n".data ++ d ++ ['\n'], [], ?_⟩
      simp [renderApplyError, ht, List.append_assoc]

/-! ## Claim C6 - terminal cascade failure -/

/-- Claim C6: when the cascade is exhausted, the step's single fatal error
is the cascadeFailed error whose patch path is the artifact path, whose
details are exactly the original direct-apply error and the three-way
error, whose rendered message carries all three, and whose artifact file
is still present (not deleted) in the final working tree. -/
theorem c6_terminal_failure (env : ApplyEnv) (prompt contextText stepLabel : Str)
    (allowEmpty : Bool) (w0 : World) (pp d t : Str)
    (h : (applyPatchFromClaude env prompt contextText stepLabel allowEmpty w0).outcome
      = .error (.cascadeFailed pp d t)) :
    pp = artifactName stepLabel ∧
    (lookupFile (applyPatchFromClaude env prompt contextText stepLabel allowEmpty w0).world
      pp).isSome = true ∧
    env.validateApply (normalizedPatchOf env w0)
      (setFile w0 (artifactName stepLabel) (normalizedPatchOf env w0)) = .error d ∧
    env.threeWay (normalizedPatchOf env w0)
      (setFile w0 (artifactName stepLabel) (normalizedPatchOf env w0)) = .error t ∧
    containsSub pp (renderApplyError (.cascadeFailed pp d t)) = true ∧
    containsSub d (renderApplyError (.cascadeFailed pp d t)) = true ∧
    containsSub t (renderApplyError (.cascadeFailed pp d t)) = true := by
  obtain ⟨hc1, hc2, hc3⟩ := render_cascade_carries pp d t
  revert h
  unfold applyPatchFromClaude runCascade fallbackCreateReplace
  dsimp only
  repeat' split
  all_goals intro h
  all_goals first
    | (injection h; done)
    | (injection h with h2; injection h2; done)
    | (injection h with h2; injection h2 with ha hb hc; subst ha; subst hb; subst hc;
       exact ⟨rfl, by simp [lookupFile_setFile_same], by assumption, by assumption,
         hc1, hc2, hc3⟩)

/-- Witness for claim C6: a concrete exhausted cascade leaves the artifact
on disk. -/
theorem c6_terminal_failure_witness :
    (lookupFile (applyPatchFromClaude envC6w ("p".data) ("c".data) ("s".data) false
      [("f.md".data, "old".data)]).world (artifactName ("s".data))).isSome = true :=
  (c6_terminal_failure envC6w ("p".data) ("c".data) ("s".data) false
    [("f.md".data, "old".data)] (artifactName ("s".data)) ("E1".data) ("E2".data)
    (by decide)).2.1

/-! ## Claim C4 - single-shot to plan fallback policy -/

/-- Claim C4: a failed TIER_1 single-shot attempt transitions to planning
exactly when the failure is the non-diff "Model response was not a patch"
error or the exhausted-cascade "The model returned an invalid patch"
error; any other failure (a raw collaborator error whose message does not
contain those sentinel phrases) is fatal. -/
theorem c4_fallback_policy (e : ApplyError)
    (h : ∀ m, e = .external m →
      containsSub ("Model response was not a patch".data) m = false ∧
      containsSub ("The model returned an invalid patch".data) m = false) :
    singleShotFailureNext e = .enteredPlanning ↔
      (e = .notAPatch ∨ ∃ pp d t, e = .cascadeFailed pp d t) := by
  cases e with
  | notAPatch =>
    have hf : shouldFallbackToPlan (renderApplyError .notAPatch) = true := by decide
    simp [singleShotFailureNext, hf]
  | cascadeFailed pp d t =>
    have hf : shouldFallbackToPlan (renderApplyError (.cascadeFailed pp d t)) = true := by
      unfold shouldFallbackToPlan renderApplyError
      rw [Bool.or_eq_true]
      right
      have hpre : ("The model returned an invalid patch".data) <+:
          ("The model returned an invalid patch. We saved it to ".data) := by decide
      exact contains_of_isPre (hpre.trans
        ((((List.prefix_append _ _).trans (List.prefix_append _ _)).trans
          (List.prefix_append _ _)).trans (List.prefix_append _ _)))
    simp [singleShotFailureNext, hf]
  | external m =>
    obtain ⟨h1, h2⟩ := h m rfl
    have hf : shouldFallbackToPlan (renderApplyError (.external m)) = false := by
      simp [shouldFallbackToPlan, renderApplyError, h1, h2]
    simp [singleShotFailureNext, hf]

/-- Witness for claim C4: a collaborator error without the sentinel
phrases is fatal, not a fallback to planning. -/
theorem c4_fallback_policy_witness :
    singleShotFailureNext (.external ("boom".data)) ≠ .enteredPlanning := by
  have hside : ∀ m, (ApplyError.external ("boom".data)) = .external m →
      containsSub ("Model response was not a patch".data) m = false ∧
      containsSub ("The model returned an invalid patch".data) m = false := by
    intro m hm
    injection hm with hm2
    subst hm2
    exact ⟨by decide, by decide⟩
  intro hp
  rcases (c4_fallback_policy _ hside).mp hp with h' | ⟨pp, d, t, h'⟩
  · exact ApplyError.noConfusion h'
  · exact ApplyError.noConfusion h'

/-! ## Claim C8 - allowEmpty handling of empty responses -/

/-- Claim C8: an all-whitespace normalized response succeeds silently
exactly when allowEmpty is true and is the "Model response was not a
patch." error when allowEmpty is false; the top-level single-shot attempt
passes allowEmpty = false, and every plan-step execution calls the
application step with allowEmpty = true, so a whitespace step response is
recorded as a success and execution continues. -/
theorem c8_allow_empty (env : ApplyEnv) (prompt contextText stepLabel : Str) (w : World)
    (h : (trimStr (normalizedPatchOf env w)).isEmpty = true) :
    applyPatchFromClaude env prompt contextText stepLabel true w
      = ⟨w, .ok .emptyAllowed, [], false⟩ ∧
    applyPatchFromClaude env prompt contextText stepLabel false w
      = ⟨w, .error .notAPatch, [], false⟩ ∧
    runSingleShotAttempt env prompt contextText w
      = ⟨w, .error .notAPatch, [], false⟩ ∧
    (∀ (envs : Nat → ApplyEnv) (buildCtx : World → Str) (origPrompt ctx : Str)
        (total i : Nat) (step : ClaudePlanStep) (rest : List ClaudePlanStep),
      envs i = env →
      runPlanStepsGo envs buildCtx origPrompt total i (step :: rest) ctx w =
        ⟨⟨i, ctx, w, w, true⟩ ::
          (runPlanStepsGo envs buildCtx origPrompt total (i + 1) rest (buildCtx w) w).records,
         (runPlanStepsGo envs buildCtx origPrompt total (i + 1) rest (buildCtx w) w).world,
         (runPlanStepsGo envs buildCtx origPrompt total (i + 1) rest (buildCtx w) w).err⟩) := by
  have hT : ∀ pr c2 lbl : Str, applyPatchFromClaude env pr c2 lbl true w
      = ⟨w, .ok .emptyAllowed, [], false⟩ := by
    intro pr c2 lbl
    simp [applyPatchFromClaude, h]
  have hF : ∀ pr c2 lbl : Str, applyPatchFromClaude env pr c2 lbl false w
      = ⟨w, .error .notAPatch, [], false⟩ := by
    intro pr c2 lbl
    simp [applyPatchFromClaude, h]
  refine ⟨hT prompt contextText stepLabel, hF prompt contextText stepLabel,
    hF prompt contextText ("single-shot".data), ?_⟩
  intro envs buildCtx origPrompt ctx total i step rest henv
  rw [runPlanStepsGo, henv, hT]

/-- Witness for claim C8 at the concrete whitespace response. -/
theorem c8_allow_empty_witness :
    applyPatchFromClaude envC8w ("p".data) ("c".data) ("lbl".data) true []
      = ⟨[], .ok .emptyAllowed, [], false⟩ ∧
    runSingleShotAttempt envC8w ("p".data) ("c".data) []
      = ⟨[], .error .notAPatch, [], false⟩ ∧
    (runPlanStepsGo envsC8w (fun _ => []) ("p".data) 1 0 planC8w ("c".data) []).err
      = none := by
  have hmain := c8_allow_empty envC8w ("p".data) ("c".data) ("lbl".data) [] (by decide)
  exact ⟨hmain.1, hmain.2.2.1, by decide⟩

/-! ## Claim C10 - non-patch response direct write -/

/-- Claim C10 counterexample: a response consisting only of a pair of code
fences is non-empty after normalization, is not a unified diff, and the
prompt names foo.ts, yet the step fails instead of writing — stripping the
fences leaves nothing to write. -/
theorem c10_nonpatch_counterexample :
    (trimStr (normalizedPatchOf envC10x [])).isEmpty = false ∧
    isUnifiedDiff (normalizedPatchOf envC10x []) = false ∧
    extractFilePathFromPrompt ("update foo.ts".data) = some ("foo.ts".data) ∧
    applyPatchFromClaude envC10x ("update foo.ts".data) ("c".data) ("s".data) false []
      = ⟨[], .error .notAPatch, [], false⟩ :=
  ⟨by decide, by decide, by decide, by decide⟩

/-- Claim C10 (amended): when the normalized response is non-empty, is not
a unified diff, and stripping code fences leaves non-blank content, and
the step prompt mentions a recognized source-file path, the step writes
the stripped content (with a trailing newline) to that path and succeeds
with no patch application; it fails with "Model response was not a
patch." when no path can be extracted or when the stripped content is
blank. -/
theorem c10_nonpatch_write (env : ApplyEnv) (prompt contextText stepLabel : Str)
    (allowEmpty : Bool) (w : World) (target : Str)
    (h1 : (trimStr (normalizedPatchOf env w)).isEmpty = false)
    (h2 : isUnifiedDiff (normalizedPatchOf env w) = false) :
    (extractFilePathFromPrompt prompt = some target →
      (trimStr (stripCodeFences (normalizedPatchOf env w))).isEmpty = false →
      applyPatchFromClaude env prompt contextText stepLabel allowEmpty w =
        ⟨setFile w target (trimStr (stripCodeFences (normalizedPatchOf env w)) ++ ['\n']),
         .ok .wroteNonPatch, [], false⟩) ∧
    ((extractFilePathFromPrompt prompt = none ∨
        (trimStr (stripCodeFences (normalizedPatchOf env w))).isEmpty = true) →
      applyPatchFromClaude env prompt contextText stepLabel allowEmpty w =
        ⟨w, .error .notAPatch, [], false⟩) := by
  constructor
  · intro hp hc
    simp [applyPatchFromClaude, h1, h2, writeFileFromNonPatchResponse, hp, hc]
  · intro hd
    rcases hd with hd | hd
    · by_cases hce : (trimStr (stripCodeFences (normalizedPatchOf env w))).isEmpty <;>
        simp [applyPatchFromClaude, h1, h2, writeFileFromNonPatchResponse, hd, hce]
    · simp [applyPatchFromClaude, h1, h2, writeFileFromNonPatchResponse, hd]

/-- Witness for the amended claim C10: a prose response is written to the
path named in the prompt. -/
theorem c10_nonpatch_write_witness :
    applyPatchFromClaude envC10w ("update foo.ts".data) ("c".data) ("s".data) false [] =
      ⟨setFile [] ("foo.ts".data)
        (trimStr (stripCodeFences (normalizedPatchOf envC10w [])) ++ ['\n']),
       .ok .wroteNonPatch, [], false⟩ :=
  (c10_nonpatch_write envC10w ("update foo.ts".data) ("c".data) ("s".data) false []
    ("foo.ts".data) (by decide) (by decide)).1 (by decide) (by decide)

theorem getLastD_irrel {α} (l : List α) (h : l ≠ []) (a b : α) :
    l.getLastD a = l.getLastD b := by
  cases l with
  | nil => exact absurd rfl h
  | cons x xs => rfl

/-! ## Claim C5 - plan execution order, context refresh and abort -/

theorem runPlanStepsGo_spec (envs : Nat → ApplyEnv) (bc : World → Str)
    (prompt : Str) (total : Nat) :
    ∀ (steps : List ClaudePlanStep) (i : Nat) (ctx : Str) (w : World)
      (r : PlanRunResult),
    runPlanStepsGo envs bc prompt total i steps ctx w = r →
    (r.records.map (·.index) = List.range' i r.records.length) ∧
    (r.records.length ≤ steps.length) ∧
    (planChainOk bc ctx w r.records = true) ∧
    (∀ rec ∈ r.records.dropLast, rec.succeeded = true) ∧
    (r.err = none ↔ (r.records.length = steps.length ∧
      ∀ rec ∈ r.records, rec.succeeded = true)) ∧
    (r.err.isSome = true → r.records ≠ [] ∧
      (r.records.getLastD defaultPlanStepRec).succeeded = false ∧
      r.world = (r.records.getLastD defaultPlanStepRec).worldAfter) ∧
    (r.err = none → (r.records = [] ∧ r.world = w) ∨
      (r.records ≠ [] ∧
        r.world = (r.records.getLastD defaultPlanStepRec).worldAfter)) := by
  intro steps
  induction steps with
  | nil =>
    intro i ctx w r hr
    simp only [runPlanStepsGo] at hr
    subst hr
    refine ⟨by simp, by simp, by simp [planChainOk], by simp, by simp, by simp, ?_⟩
    intro _
    exact Or.inl ⟨rfl, rfl⟩
  | cons step rest ih =>
    intro i ctx w r hr
    simp only [runPlanStepsGo] at hr
    split at hr
    · -- the step's application threw: the run halts here
      rename_i e ho
      subst hr
      dsimp only
      refine ⟨by simp [List.range'], by simp, by simp [planChainOk], by simp, ?_, ?_, ?_⟩
      · constructor
        · intro hcontra; cases hcontra
        · rintro ⟨-, hall⟩
          simp at hall
      · intro _
        exact ⟨by simp, rfl, rfl⟩
      · intro hcontra; cases hcontra
    · -- the step succeeded: recurse
      rename_i o ho
      subst hr
      dsimp only
      obtain ⟨ih1, ih2, ih3, ih4, ih5, ih6, ih7⟩ := ih (i + 1) _ _ _ rfl
      refine ⟨?_, ?_, ?_, ?_, ?_, ?_, ?_⟩
      · simp only [List.map_cons, List.length_cons, List.range'_succ]
        rw [ih1]
      · simp only [List.length_cons]
        omega
      · simpa [planChainOk] using ih3
      · cases hrecs : (runPlanStepsGo envs bc prompt total (i + 1) rest
            (bc (applyPatchFromClaude (envs i)
              (buildStepPrompt prompt step (i + 1) total) ctx
              (stepLabelOf i) true w).world)
            (applyPatchFromClaude (envs i)
              (buildStepPrompt prompt step (i + 1) total) ctx
              (stepLabelOf i) true w).world).records with
        | nil => simp
        | cons a as =>
          rw [hrecs] at ih4
          intro rec hrec
          rw [List.dropLast_cons₂] at hrec
          rcases List.mem_cons.mp hrec with rfl | hrec
          · rfl
          · exact ih4 _ hrec
      · rw [ih5]
        constructor
        · rintro ⟨hlen, hall⟩
          refine ⟨by simp only [List.length_cons]; omega, ?_⟩
          intro rec hrec
          rcases List.mem_cons.mp hrec with rfl | hrec
          · rfl
          · exact hall _ hrec
        · rintro ⟨hlen, hall⟩
          simp only [List.length_cons] at hlen
          refine ⟨by omega, ?_⟩
          intro rec hrec
          exact hall _ (List.mem_cons_of_mem _ hrec)
      · intro hsome
        obtain ⟨hne, hlast, hworld⟩ := ih6 hsome
        refine ⟨by simp, ?_, ?_⟩
        · rw [List.getLastD_cons, getLastD_irrel _ hne]
          exact hlast
        · rw [List.getLastD_cons, getLastD_irrel _ hne]
          exact hworld
      · intro hnone
        rcases ih7 hnone with ⟨hrecs, hw⟩ | ⟨hne, hw⟩
        · refine Or.inr ⟨by simp, ?_⟩
          simp [hrecs, hw]
        · refine Or.inr ⟨by simp, ?_⟩
          rw [List.getLastD_cons, getLastD_irrel _ hne]
          exact hw

/-- Claim C5: plan steps execute strictly in order with none skipped or
reordered; the first step sees the initial context and each later step
sees the context rebuilt from the working tree its predecessor left; when
a step's application fails, the run stops with that step last and failed,
its predecessors all succeeded, the working tree keeps every mutation made
so far (no rollback), and no later step runs; the run reports no error
exactly when every step ran and succeeded. -/
theorem c5_plan_execution (envs : Nat → ApplyEnv) (bc : World → Str)
    (prompt : Str) (plan : List ClaudePlanStep) (ctx : Str) (w : World)
    (r : PlanRunResult) (hne : plan.isEmpty = false)
    (hr : runPlanStepsGo envs bc prompt plan.length 0 plan ctx w = r) :
    runPlanExecute envs bc prompt plan ctx w = .ok r ∧
    (r.records.map (·.index) = List.range r.records.length) ∧
    (r.records.length ≤ plan.length) ∧
    (planChainOk bc ctx w r.records = true) ∧
    (∀ rec ∈ r.records.dropLast, rec.succeeded = true) ∧
    (r.err = none ↔ (r.records.length = plan.length ∧
      ∀ rec ∈ r.records, rec.succeeded = true)) ∧
    (r.err.isSome = true → r.records ≠ [] ∧
      (r.records.getLastD defaultPlanStepRec).succeeded = false ∧
      r.world = (r.records.getLastD defaultPlanStepRec).worldAfter) ∧
    (r.err = none → (r.records = [] ∧ r.world = w) ∨
      (r.records ≠ [] ∧
        r.world = (r.records.getLastD defaultPlanStepRec).worldAfter)) := by
  obtain ⟨h1, h2, h3, h4, h5, h6, h7⟩ :=
    runPlanStepsGo_spec envs bc prompt plan.length plan 0 ctx w r hr
  refine ⟨?_, ?_, h2, h3, h4, h5, h6, h7⟩
  · unfold runPlanExecute
    rw [if_neg (by simp [hne]), hr]
  · rw [h1, List.range_eq_range']

/-- Witness for claim C5: the spec's three-step scenario — step 1 writes a
file, step 2's application fails, so the run halts after step 2, step 1's
file remains in the working tree, and step 3 never runs. -/
theorem c5_plan_execution_witness :
    (runPlanStepsGo envsC5w buildCtxC5w ("do things".data) planC5w.length 0 planC5w
      ("ctx0".data) []).records.map (fun rec => rec.index) = [0, 1] ∧
    (runPlanStepsGo envsC5w buildCtxC5w ("do things".data) planC5w.length 0 planC5w
      ("ctx0".data) []).err.isSome = true ∧
    lookupFile (runPlanStepsGo envsC5w buildCtxC5w ("do things".data) planC5w.length 0
      planC5w ("ctx0".data) []).world ("foo.md".data) =
      some ("hello world content\n".data) := by
  have hmain := c5_plan_execution envsC5w buildCtxC5w ("do things".data) planC5w
    ("ctx0".data) [] _ (by decide) rfl
  refine ⟨?_, by decide, by decide⟩
  have hlen : (runPlanStepsGo envsC5w buildCtxC5w ("do things".data) planC5w.length 0
      planC5w ("ctx0".data) []).records.length = 2 := by decide
  have hidx := hmain.2.1
  rw [hlen] at hidx
  exact hidx.trans (by decide)

/-! ## Claim C2 - the count extractor -/

/-- Claim C2 counterexample: the spec asserts
`extractRequestedCount "fix the three files" = 3`, but the fuzzy matcher
maps the ordinary word "fix" to the number word "six" (edit distance 1),
so the extractor returns 6. -/
theorem c2_count_extractor_counterexample :
    extractRequestedCount ("fix the three files".data) ≠ 3 := by decide

/-- Claim C2 (amended): the extractor takes the maximum across all
strategies, which for "fix the three files" is 6 (fuzzy "fix" matches
"six", and "files" matches "five"); the remaining examples hold as the
spec states them. -/
theorem c2_count_extractor_amended :
    extractRequestedCount ("fix the three files".data) = 6 ∧
    findClosestNumberWord ("fix".data) 2 = "six".data ∧
    findClosestNumberWord ("files".data) 2 = "five".data ∧
    extractRequestedCount ("update 12 endpoints".data) = 12 ∧
    extractRequestedCount ("twenty-five items".data) = 25 ∧
    extractRequestedCount ("nothing here".data) = 0 ∧
    extractRequestedCount ("fourten".data) = 14 :=
  ⟨by decide, by decide, by decide, by decide, by decide, by decide, by decide⟩

/-! ## Claim C3 - the task sizing classifier -/

/-- Claim C3: for every prompt and context, classifyTaskSizing computes
exactly the additive score of the spec (+2 length over 600 else +1 over
300; +2 context over 200k else +1 over 100k; +3 count at least 20 else +2
at least 8 else +2 at least 4; +1 for a broad-scope keyword) and maps
score at least 5 to TIER_3, at least 3 to TIER_2, else TIER_1. -/
theorem c3_classifier_matches_spec (prompt contextText : Str) :
    classifyTaskSizing prompt contextText = c3Tier prompt contextText := by
  have hk : (if scopeKeywords.any (fun k => containsSub k (toLowerStr prompt)) then (1 : Nat)
      else 0) = c3KeywordScore prompt := by
    unfold c3KeywordScore
    by_cases h : scopeKeywords.any (fun k => containsSub k (toLowerStr prompt)) = true
    · rw [if_pos h, if_pos]
      rw [List.any_eq_true] at h
      simpa using h
    · rw [if_neg h, if_neg]
      rw [List.any_eq_true] at h
      simpa using h
  unfold classifyTaskSizing c3Tier c3Score c3PromptLengthScore c3ContextSizeScore c3CountScore
  simp only [hk]

end LlmPrAssistant
